import Mathlib

/-!
# aws-cost-notifier: cost retrieval and notification formatting

A shallow embedding of the Go sources `cmd/cost.go`, `pkg/aws/cost.go` and
`pkg/notifier/notifier.go`, followed by the properties proved about it.

Conventions of the embedding:

* `float64` values are `F64`: NaN, the two infinities, or a finite value carried as an
  exact rational.  Only comparisons are interpreted; they follow IEEE 754 (every
  comparison with NaN is false).  Arithmetic and formatting of floats are parameters.
* `time.Time` is an instant in Unix seconds with its location, a location being its
  list of offset transitions; `time.Date` normalises its fields and resolves the offset
  the way the Go standard library does.
* Standard-library and SDK calls whose code is not part of the repository
  (`fmt.Sscanf`, `fmt.Sprintf`, `sort.Slice`, the Cost Explorer client) are
  parameters of the functions that call them.
-/

namespace AwsCostNotifier

/-! ## float64 -/

/-- A `float64`: not-a-number, minus infinity, plus infinity, or a finite value. -/
inductive F64 where
  | nan : F64
  | ninf : F64
  | pinf : F64
  | fin (q : ℚ) : F64
  deriving DecidableEq

namespace F64

/-- Go `a < b` on float64 (false whenever an operand is NaN). -/
def lt : F64 → F64 → Bool
  | nan, _ => false
  | _, nan => false
  | ninf, ninf => false
  | ninf, _ => true
  | _, ninf => false
  | pinf, _ => false
  | fin _, pinf => true
  | fin a, fin b => decide (a < b)

/-- Go `a > b` on float64. -/
def gt (a b : F64) : Bool := lt b a

/-- Go `a >= b` on float64 (false whenever an operand is NaN). -/
def ge : F64 → F64 → Bool
  | nan, _ => false
  | _, nan => false
  | _, ninf => true
  | ninf, _ => false
  | pinf, _ => true
  | fin _, pinf => false
  | fin a, fin b => decide (b ≤ a)

/-- The zero value of a `float64` variable. -/
def zero : F64 := fin 0

end F64

/-! ## cmd/cost.go: colour selection -/

/-- Function `getColorByAmount` of `cmd/cost.go`. -/
def getColorByAmount (amount : F64) : String :=
  if amount.ge (F64.fin 100) then "danger"
  else if amount.ge (F64.fin 50) then "warning"
  else "good"

/-- The float64 nearest to the decimal literal 99.99. -/
def f64_99_99 : F64 := F64.fin (7036170730324623 / 70368744177664)

/-- The float64 nearest to the decimal literal 49.99. -/
def f64_49_99 : F64 := F64.fin (7035467042882847 / 140737488355328)

/-! ## pkg/notifier/notifier.go -/

/-- Go `error` values; a result of type `error` is `Option GoError`, `none` being nil. -/
abbrev GoError := String

/-- Struct `Field` of the notifier package. -/
structure Field where
  Title : String
  Value : String
  Short : Bool
  deriving DecidableEq

/-- Alias `AttachmentField` of `Field`. -/
abbrev AttachmentField := Field

/-- Struct `Attachment` of the notifier package. -/
structure Attachment where
  Title : String := ""
  Text : String := ""
  Color : String := ""
  Fields : List Field := []
  Footer : String := ""
  Timestamp : Int := 0
  deriving DecidableEq

/-- Struct `Message` of the notifier package. -/
structure Message where
  Text : String
  Attachments : List Attachment
  deriving DecidableEq

/-- Struct `MessageOptions` of the notifier package. -/
structure MessageOptions where
  Channel : String := ""
  Username : String := ""
  IconEmoji : String := ""
  IconURL : String := ""
  Mentions : List String := []

/-- Go type `Option` of the notifier package: a function updating `MessageOptions`. -/
abbrev MessageOption := MessageOptions → MessageOptions

/-- Interface `Notifier`.  Methods act on the outside world `W` (everything a send could
change) by explicit state passing and return the Go `error`. -/
structure Notifier (W : Type) where
  SendMessage : String → List MessageOption → W → Option GoError × W
  SendInfo : String → List MessageOption → W → Option GoError × W
  SendWarning : String → List MessageOption → W → Option GoError × W
  SendError : String → List MessageOption → W → Option GoError × W
  SendSuccess : String → List MessageOption → W → Option GoError × W
  SendAttachment : Option Attachment → W → Option GoError × W
  Send : Message → W → Option GoError × W
  IsEnabled : Bool

/-- Struct `NullNotifier`: it has no fields. -/
structure NullNotifier where
  deriving DecidableEq

/-- Constructor `NewNullNotifier`. -/
def NewNullNotifier : NullNotifier := {}

namespace NullNotifier

variable {W : Type}

/-- Method `SendMessage` of `NullNotifier`. -/
def SendMessage (_n : NullNotifier) (_msg : String) (_opts : List MessageOption) (w : W) :
    Option GoError × W := (none, w)

/-- Method `SendInfo` of `NullNotifier`. -/
def SendInfo (_n : NullNotifier) (_msg : String) (_opts : List MessageOption) (w : W) :
    Option GoError × W := (none, w)

/-- Method `SendWarning` of `NullNotifier`. -/
def SendWarning (_n : NullNotifier) (_msg : String) (_opts : List MessageOption) (w : W) :
    Option GoError × W := (none, w)

/-- Method `SendError` of `NullNotifier`. -/
def SendError (_n : NullNotifier) (_msg : String) (_opts : List MessageOption) (w : W) :
    Option GoError × W := (none, w)

/-- Method `SendSuccess` of `NullNotifier`. -/
def SendSuccess (_n : NullNotifier) (_msg : String) (_opts : List MessageOption) (w : W) :
    Option GoError × W := (none, w)

/-- Method `SendAttachment` of `NullNotifier` (the attachment pointer may be nil). -/
def SendAttachment (_n : NullNotifier) (_att : Option Attachment) (w : W) :
    Option GoError × W := (none, w)

/-- Method `Send` of `NullNotifier`. -/
def Send (_n : NullNotifier) (_msg : Message) (w : W) : Option GoError × W := (none, w)

/-- Method `IsEnabled` of `NullNotifier`. -/
def IsEnabled (_n : NullNotifier) : Bool := false

/-- A `NullNotifier` used through the `Notifier` interface. -/
def toNotifier (n : NullNotifier) : Notifier W where
  SendMessage := n.SendMessage
  SendInfo := n.SendInfo
  SendWarning := n.SendWarning
  SendError := n.SendError
  SendSuccess := n.SendSuccess
  SendAttachment := n.SendAttachment
  Send := n.Send
  IsEnabled := n.IsEnabled

end NullNotifier

/-! ## Package time: locations, instants and civil dates -/

/-- Result of the method `lookup` of `time.Location`: the zone in effect at an instant,
as its offset in seconds east of UTC and the instants `start <= t < stop` it holds for. -/
structure ZoneSpan where
  offset : Int
  start : Int
  stop : Int
  deriving DecidableEq

/-- A `*time.Location`: the offset in effect before the first transition, and the
transitions in increasing order of time, each an instant (Unix seconds) with the offset
in effect from then on. -/
structure Location where
  initial : Int
  tx : List (Int × Int)
  deriving DecidableEq

/-- Constant `alpha` of package time: the start of the first zone span. -/
def alpha : Int := -(2 ^ 63)

/-- Constant `omega` of package time: the end of the last zone span. -/
def omega : Int := 2 ^ 63 - 1

/-- Search of `lookup` for the span holding `sec`: `offset` is in effect from `start`,
and `rest` holds the transitions after `start`. -/
def lookupFrom (offset start : Int) : List (Int × Int) → Int → ZoneSpan
  | [], _ => { offset := offset, start := start, stop := omega }
  | (tw, off) :: rest, sec =>
    if sec < tw then { offset := offset, start := start, stop := tw }
    else lookupFrom off tw rest sec

/-- Method `lookup` of `time.Location`: the zone span in effect at the instant `sec`. -/
def Location.lookup (l : Location) (sec : Int) : ZoneSpan :=
  lookupFrom l.initial alpha l.tx sec

/-- A `time.Time` to the second: the instant in Unix seconds and the location. -/
structure Time where
  unix : Int
  loc : Location
  deriving DecidableEq

/-- Function `isLeap` of package time. -/
def isLeap (year : Int) : Bool :=
  year % 4 = 0 && (year % 100 ≠ 0 || year % 400 = 0)

/-- Helper `norm` of package time: carries `lo` into `hi` so that `0 <= lo < base`.
Both divisions have non-negative operands, where Go's truncating `/` is `Int` division. -/
def norm (hi lo base : Int) : Int × Int :=
  let p : Int × Int :=
    if lo < 0 then
      let n := (-lo - 1) / base + 1
      (hi - n, lo + n * base)
    else (hi, lo)
  if p.2 ≥ base then
    let n := p.2 / base
    (p.1 + n, p.2 - n * base)
  else p

/-- Number of days from 1 January 1970 to 1 January of `year` (what `daysSinceEpoch` of
package time counts, from the Unix epoch). -/
def daysSinceEpoch (year : Int) : Int :=
  let y := year - 1
  365 * (year - 1970) + (y / 4 - y / 100 + y / 400) - 477

/-- Table `daysBefore` of package time: days of a non-leap year before month `m + 1`. -/
def daysBefore (m : Int) : Int :=
  if m ≤ 0 then 0 else if m = 1 then 31 else if m = 2 then 59 else if m = 3 then 90
  else if m = 4 then 120 else if m = 5 then 151 else if m = 6 then 181
  else if m = 7 then 212 else if m = 8 then 243 else if m = 9 then 273
  else if m = 10 then 304 else if m = 11 then 334 else 365

/-- The civil date (year, month, day) of the day `z` days after 1 January 1970, in the
proleptic Gregorian calendar (what `absDate` of package time computes). -/
def civilFromDays (z : Int) : Int × Int × Int :=
  let z := z + 719468
  let era := z / 146097
  let doe := z - era * 146097
  let yoe := (doe - doe / 1460 + doe / 36524 - doe / 146096) / 365
  let doy := doe - (365 * yoe + yoe / 4 - yoe / 100)
  let mp := (5 * doy + 2) / 153
  let d := doy - (153 * mp + 2) / 5 + 1
  let m := if mp < 10 then mp + 3 else mp - 9
  let y := yoe + era * 400
  (if m ≤ 2 then y + 1 else y, m, d)

/-- Function `time.Date(year, month, day, hour, min, sec, 0, loc)`.  The fields are
normalised with carry, the result is taken as seconds of a clock without offset, and the
offset of the location is then subtracted: the offset in effect at that number of seconds
taken as an instant, or, when the instant so obtained lies outside the span of that
offset, the offset in effect at that instant. -/
def timeDate (year month day hour min sec : Int) (loc : Location) : Time :=
  let ym := norm year (month - 1) 12
  let year := ym.1
  let month := ym.2 + 1
  let ms := norm min sec 60
  let hm := norm hour ms.1 60
  let dh := norm day hm.1 24
  let d := daysSinceEpoch year + daysBefore (month - 1)
    + (if isLeap year && decide (month ≥ 3) then 1 else 0) + (dh.1 - 1)
  let unix := d * 86400 + dh.2 * 3600 + hm.2 * 60 + ms.2
  let z := loc.lookup unix
  if z.offset ≠ 0 then
    let utc := unix - z.offset
    let offset := if utc < z.start ∨ utc ≥ z.stop then (loc.lookup utc).offset else z.offset
    { unix := unix - offset, loc := loc }
  else { unix := unix, loc := loc }

namespace Time

/-- Seconds shown by a clock in the location of `t` (method `abs`, from the Unix
epoch): the instant plus the offset in effect at it. -/
def localSeconds (t : Time) : Int :=
  t.unix + (t.loc.lookup t.unix).offset

/-- Method `Date` of `time.Time`: year, month and day in the location of `t`. -/
def Date (t : Time) : Int × Int × Int :=
  civilFromDays (t.localSeconds / 86400)

/-- Method `Year` of `time.Time`. -/
def Year (t : Time) : Int := t.Date.1

/-- Method `Month` of `time.Time`. -/
def Month (t : Time) : Int := t.Date.2.1

/-- Method `Day` of `time.Time`. -/
def Day (t : Time) : Int := t.Date.2.2

/-- Method `Clock` of `time.Time`: hour, minute and second in the location of `t`. -/
def Clock (t : Time) : Int × Int × Int :=
  let s := t.localSeconds % 86400
  (s / 3600, s % 3600 / 60, s % 60)

/-- Method `AddDate` of `time.Time`. -/
def AddDate (t : Time) (years months days : Int) : Time :=
  timeDate (t.Year + years) (t.Month + months) (t.Day + days)
    t.Clock.1 t.Clock.2.1 t.Clock.2.2 t.loc

/-- Helper `appendInt` of package time: decimal with zero padding to `width` digits. -/
def appendInt (x : Int) (width : Nat) : String :=
  let s := toString x.natAbs
  (if x < 0 then "-" else "") ++ String.mk (List.replicate (width - s.length) '0') ++ s

/-- Method `Format` with the layout "2006-01-02". -/
def Format (t : Time) : String :=
  appendInt t.Year 4 ++ "-" ++ appendInt t.Month 2 ++ "-" ++ appendInt t.Day 2

end Time

/-! ## Cost Explorer SDK types used by pkg/aws/cost.go -/

/-- SDK struct `types.MetricValue`; both fields are string pointers (`none` is nil). -/
structure MetricValue where
  Amount : Option String
  Unit : Option String
  deriving DecidableEq

/-- SDK struct `types.Group`; the Go map `Metrics` is an association list. -/
structure Group where
  Keys : List String
  Metrics : List (String × MetricValue)
  deriving DecidableEq

/-- SDK struct `types.ResultByTime`; the Go map `Total` is an association list. -/
structure ResultByTime where
  Total : List (String × MetricValue)
  Groups : List Group
  deriving DecidableEq

/-- SDK struct `GetCostAndUsageOutput`. -/
structure GetCostAndUsageOutput where
  ResultsByTime : List ResultByTime
  deriving DecidableEq

/-- SDK struct `GetCostForecastOutput`; `Total` is a pointer. -/
structure GetCostForecastOutput where
  Total : Option MetricValue
  deriving DecidableEq

/-- SDK struct `types.DateInterval`: ISO dates, the end exclusive. -/
structure DateInterval where
  Start : String
  End : String
  deriving DecidableEq

/-- SDK enumeration `types.Granularity`, the two values the program uses. -/
inductive Granularity where
  | daily : Granularity
  | monthly : Granularity
  deriving DecidableEq

/-- SDK struct `types.GroupDefinition`; its field `Type` is `Type_` here. -/
structure GroupDefinition where
  Type_ : String
  Key : String
  deriving DecidableEq

/-- SDK struct `GetCostAndUsageInput`. -/
structure GetCostAndUsageInput where
  TimePeriod : DateInterval
  Granularity : Granularity
  Metrics : List String
  GroupBy : List GroupDefinition := []
  deriving DecidableEq

/-- SDK struct `GetCostForecastInput`. -/
structure GetCostForecastInput where
  TimePeriod : DateInterval
  Granularity : Granularity
  Metric : String
  deriving DecidableEq

/-- The Cost Explorer client: each operation answers a request with a response or an
error. -/
structure CostExplorerClient where
  GetCostAndUsage : GetCostAndUsageInput → Except GoError GetCostAndUsageOutput
  GetCostForecast : GetCostForecastInput → Except GoError GetCostForecastOutput

/-- A request sent to the billing API. -/
inductive ApiCall where
  | costAndUsage (input : GetCostAndUsageInput) : ApiCall
  | costForecast (input : GetCostForecastInput) : ApiCall
  deriving DecidableEq

/-! ## pkg/aws/cost.go -/

/-- Struct `CostClient`. -/
structure CostClient where
  client : CostExplorerClient

/-- Struct `ServiceCost`. -/
structure ServiceCost where
  Service : String
  Cost : F64
  deriving DecidableEq

/-- Struct `DailyCostSummary`. -/
structure DailyCostSummary where
  Date : String
  TotalCost : F64
  Currency : String
  Services : List ServiceCost
  deriving DecidableEq

/-- Struct `MonthlyCostSummary`. -/
structure MonthlyCostSummary where
  MonthToDate : F64
  Forecast : F64
  Currency : String
  deriving DecidableEq

/-- The standard-library functions the program calls, as parameters:
`scanFloat s` is the value `fmt.Sscanf(s, "%f", &v)` stores in `v`, or `none` when the
scan fails; `formatFloat n x` is `fmt.Sprintf("%.nf", x)`; `sortSlice less xs` is the
slice after `sort.Slice(xs, less)`; `addFloat` is float64 addition. -/
structure StdLib where
  scanFloat : String → Option F64
  formatFloat : Nat → F64 → String
  sortSlice : (ServiceCost → ServiceCost → Bool) → List ServiceCost → List ServiceCost
  addFloat : F64 → F64 → F64

/-- The statement `fmt.Sscanf(str, "%f", &v)` with its results discarded: a failed scan
leaves `v` as it was. -/
def sscanfFloat (lib : StdLib) (str : String) (v : F64) : F64 :=
  match lib.scanFloat str with
  | some f => f
  | none => v

/-- Lines 97-109 of `getDailyCost`, repeated at lines 193-205 of `GetMonthlyForecast`:
the amount and the unit of the "UnblendedCost" total of the first result. -/
def readTotal (lib : StdLib) (results : List ResultByTime) : F64 × String :=
  match results with
  | [] => (F64.zero, "")
  | r :: _ =>
    if r.Total.length > 0 then
      match r.Total.lookup "UnblendedCost" with
      | some cost =>
        ((match cost.Amount with
          | some amount => sscanfFloat lib amount F64.zero
          | none => F64.zero),
         (match cost.Unit with
          | some unit => unit
          | none => ""))
      | none => (F64.zero, "")
    else (F64.zero, "")

/-- Body of the loop over the groups in `getDailyCost` (lines 138-152): appends the
service of `group` to `services` when its amount scans to a value above zero. -/
def appendService (lib : StdLib) (services : List ServiceCost) (group : Group) :
    List ServiceCost :=
  if group.Keys.length > 0 ∧ group.Metrics.length > 0 then
    match group.Keys with
    | [] => services
    | serviceName :: _ =>
      match group.Metrics.lookup "UnblendedCost" with
      | some cost =>
        match cost.Amount with
        | some str =>
          let amount := sscanfFloat lib str F64.zero
          if amount.gt (F64.fin 0) then
            services ++ [{ Service := serviceName, Cost := amount }]
          else services
        | none => services
      | none => services
  else services

/-- Lines 134-154 of `getDailyCost`: the services collected from the first result. -/
def collectServices (lib : StdLib) (results : List ResultByTime) : List ServiceCost :=
  match results with
  | [] => []
  | r :: _ => r.Groups.foldl (appendService lib) []

/-- The comparison passed to `sort.Slice` in `getDailyCost`. -/
def costGreater (a b : ServiceCost) : Bool := a.Cost.gt b.Cost

/-- Request `totalInput` of `getDailyCost`. -/
def totalInput (date : Time) : GetCostAndUsageInput :=
  { TimePeriod := { Start := date.Format, End := (date.AddDate 0 0 1).Format }
    Granularity := Granularity.daily
    Metrics := ["UnblendedCost"] }

/-- Request `serviceInput` of `getDailyCost`. -/
def serviceInput (date : Time) : GetCostAndUsageInput :=
  { TimePeriod := { Start := date.Format, End := (date.AddDate 0 0 1).Format }
    Granularity := Granularity.daily
    Metrics := ["UnblendedCost"]
    GroupBy := [{ Type_ := "DIMENSION", Key := "SERVICE" }] }

/-- Method `getDailyCost` of `CostClient`: the requests sent, and the result. -/
def getDailyCost (lib : StdLib) (c : CostClient) (date : Time) :
    List ApiCall × Except GoError DailyCostSummary :=
  let start := date.Format
  match c.client.GetCostAndUsage (totalInput date) with
  | .error err =>
    ([ApiCall.costAndUsage (totalInput date)], .error ("failed to get total cost: " ++ err))
  | .ok totalResult =>
    let total := readTotal lib totalResult.ResultsByTime
    match c.client.GetCostAndUsage (serviceInput date) with
    | .error err =>
      ([ApiCall.costAndUsage (totalInput date), ApiCall.costAndUsage (serviceInput date)],
        .error ("failed to get service costs: " ++ err))
    | .ok serviceResult =>
      let services := collectServices lib serviceResult.ResultsByTime
      let services := lib.sortSlice costGreater services
      ([ApiCall.costAndUsage (totalInput date), ApiCall.costAndUsage (serviceInput date)],
        .ok { Date := start, TotalCost := total.1, Currency := total.2, Services := services })

/-- Method `GetYesterdayCost` of `CostClient`; `now` is the reading of `time.Now()`. -/
def GetYesterdayCost (lib : StdLib) (c : CostClient) (now : Time) :
    List ApiCall × Except GoError DailyCostSummary :=
  let yesterday := now.AddDate 0 0 (-1)
  getDailyCost lib c yesterday

/-- Local `monthStart` of `GetMonthlyForecast`. -/
def monthStart (now : Time) : Time := timeDate now.Year now.Month 1 0 0 0 now.loc

/-- Local `monthEnd` of `GetMonthlyForecast`. -/
def monthEnd (now : Time) : Time :=
  timeDate now.Year (now.Month + 1) 1 0 0 0 now.loc

/-- Request `mtdInput` of `GetMonthlyForecast`. -/
def mtdInput (now : Time) : GetCostAndUsageInput :=
  { TimePeriod := { Start := (monthStart now).Format, End := now.Format }
    Granularity := Granularity.monthly
    Metrics := ["UnblendedCost"] }

/-- Request `forecastInput` of `GetMonthlyForecast`. -/
def forecastInput (now : Time) : GetCostForecastInput :=
  { TimePeriod := { Start := now.Format, End := (monthEnd now).Format }
    Granularity := Granularity.monthly
    Metric := "UNBLENDED_COST" }

/-- Method `GetMonthlyForecast` of `CostClient`: the requests sent, and the result;
`now` is the reading of `time.Now()`. -/
def GetMonthlyForecast (lib : StdLib) (c : CostClient) (now : Time) :
    List ApiCall × Except GoError MonthlyCostSummary :=
  match c.client.GetCostAndUsage (mtdInput now) with
  | .error err =>
    ([ApiCall.costAndUsage (mtdInput now)],
      .error ("failed to get month-to-date cost: " ++ err))
  | .ok mtdResult =>
    let total := readTotal lib mtdResult.ResultsByTime
    let monthToDate := total.1
    let currency := total.2
    match c.client.GetCostForecast (forecastInput now) with
    | .error err =>
      ([ApiCall.costAndUsage (mtdInput now), ApiCall.costForecast (forecastInput now)],
        .error ("failed to get cost forecast: " ++ err))
    | .ok forecastResult =>
      let forecastAmount :=
        match forecastResult.Total with
        | some t =>
          (match t.Amount with
           | some str => sscanfFloat lib str F64.zero
           | none => F64.zero)
        | none => F64.zero
      ([ApiCall.costAndUsage (mtdInput now), ApiCall.costForecast (forecastInput now)],
        .ok { MonthToDate := monthToDate
              Forecast := lib.addFloat monthToDate forecastAmount
              Currency := currency })

/-! ## cmd/cost.go: the notification and the command -/

/-- Lines 102-116 of `sendCostNotification`: one short field per service, for the
indices below `maxServices` (10, or the number of services when that is smaller).  The
index is always in range, so the `none` branch is never taken. -/
def serviceFields (lib : StdLib) (services : List ServiceCost) : List AttachmentField :=
  let maxServices := if services.length < 10 then services.length else 10
  (List.range maxServices).foldl
    (fun serviceFields i =>
      match services[i]? with
      | some service =>
        serviceFields ++
          [{ Title := service.Service
             Value := "$" ++ lib.formatFloat 2 service.Cost
             Short := true }]
      | none => serviceFields)
    []

/-- Lines 118-147 of `sendCostNotification`: the message handed to `Send`. -/
def costMessage (lib : StdLib) (daily : DailyCostSummary) (monthly : MonthlyCostSummary) :
    Message :=
  let dailyColor := getColorByAmount daily.TotalCost
  let dailyAttachment : Attachment :=
    { Color := dailyColor
      Title := "前日のコスト (" ++ daily.Date ++ ")"
      Text := "*$" ++ lib.formatFloat 2 daily.TotalCost ++ "* " ++ daily.Currency
      Fields := serviceFields lib daily.Services }
  let monthlyColor := getColorByAmount monthly.MonthToDate
  let monthlyAttachment : Attachment :=
    { Color := monthlyColor
      Title := "当月の累計"
      Fields :=
        [{ Title := "月初から現在まで"
           Value := "$" ++ lib.formatFloat 2 monthly.MonthToDate
           Short := false }] }
  { Text := "AWS コストレポート"
    Attachments := [dailyAttachment, monthlyAttachment] }

/-- Function `sendCostNotification`: builds the message and calls `Send` once. -/
def sendCostNotification {W : Type} (lib : StdLib) (n : Notifier W)
    (daily : DailyCostSummary) (monthly : MonthlyCostSummary) (w : W) : Option GoError × W :=
  n.Send (costMessage lib daily monthly) w

/-- Function `createNotifier`: `enabled` is the setting "slack.enabled" and
`newSlackNotifier` the result of `notifier.NewSlackNotifier` on the configured URL and
timeout. -/
def createNotifier {W : Type} (enabled : Bool)
    (newSlackNotifier : Except GoError (Notifier W)) : Notifier W :=
  if !enabled then NewNullNotifier.toNotifier
  else
    match newSlackNotifier with
    | .error _ => NewNullNotifier.toNotifier
    | .ok slack => slack

/-- The float64 nearest to the decimal literal 0.01. -/
def f64_0_01 : F64 := F64.fin (5764607523034235 / 576460752303423488)

/-- What a run of the command does, in order. -/
inductive Event where
  | getYesterdayCost : Event
  | getMonthlyForecast : Event
  | send (msg : Message) : Event
  | stdout (line : String) : Event
  | fatal (line : String) : Event
  deriving DecidableEq

/-- How a run ends: `Run` returns, or `log.Fatalf` exits the process with status 1. -/
inductive Outcome where
  | returned : Outcome
  | exited (status : Nat) : Outcome
  deriving DecidableEq

/-- Everything a run of the command reads from outside. -/
structure RunEnv (W : Type) where
  newCostClient : Except GoError CostClient
  nowDaily : Time
  nowMonthly : Time
  debug : Bool
  slackEnabled : Bool
  newSlackNotifier : Except GoError (Notifier W)

/-- Result of a run: the events in order, the outcome and the outside world after it. -/
structure RunResult (W : Type) where
  events : List Event
  outcome : Outcome
  world : W

/-- Field `Run` of `costCmd`. -/
def Run {W : Type} (lib : StdLib) (env : RunEnv W) (w : W) : RunResult W :=
  match env.newCostClient with
  | .error err =>
    { events := [Event.fatal ("AWSクライアントの初期化に失敗しました: " ++ err)]
      outcome := Outcome.exited 1
      world := w }
  | .ok costClient =>
    match (GetYesterdayCost lib costClient env.nowDaily).2 with
    | .error err =>
      { events := [Event.getYesterdayCost,
          Event.fatal ("前日のコスト取得に失敗しました: " ++ err)]
        outcome := Outcome.exited 1
        world := w }
    | .ok dailyCost =>
      let debugLines :=
        if env.debug then
          [Event.stdout ("[DEBUG] 前日のコスト: $" ++ lib.formatFloat 6 dailyCost.TotalCost
            ++ " " ++ dailyCost.Currency)]
        else []
      if dailyCost.TotalCost.lt f64_0_01 then
        { events := [Event.getYesterdayCost] ++ debugLines ++
            [Event.stdout ("前日のコストが$" ++ lib.formatFloat 4 dailyCost.TotalCost
              ++ "と小さいため、通知をスキップしました")]
          outcome := Outcome.returned
          world := w }
      else
        match (GetMonthlyForecast lib costClient env.nowMonthly).2 with
        | .error err =>
          { events := [Event.getYesterdayCost] ++ debugLines ++
              [Event.getMonthlyForecast,
               Event.fatal ("月間予測の取得に失敗しました: " ++ err)]
            outcome := Outcome.exited 1
            world := w }
        | .ok monthlyCost =>
          let slackNotifier := createNotifier env.slackEnabled env.newSlackNotifier
          let sent := sendCostNotification lib slackNotifier dailyCost monthlyCost w
          match sent.1 with
          | some err =>
            { events := [Event.getYesterdayCost] ++ debugLines ++
                [Event.getMonthlyForecast,
                 Event.send (costMessage lib dailyCost monthlyCost),
                 Event.fatal ("通知の送信に失敗しました: " ++ err)]
              outcome := Outcome.exited 1
              world := sent.2 }
          | none =>
            { events := [Event.getYesterdayCost] ++ debugLines ++
                [Event.getMonthlyForecast,
                 Event.send (costMessage lib dailyCost monthlyCost),
                 Event.stdout "AWS コスト情報をSlackに通知しました"]
              outcome := Outcome.returned
              world := sent.2 }

/-! ## Vocabulary of the properties -/

/-- The comparison `less` is a strict weak ordering on the elements of `xs`, which is
what `sort.Slice` asks of it. -/
def StrictWeakOn (less : ServiceCost → ServiceCost → Bool) (xs : List ServiceCost) : Prop :=
  (∀ a ∈ xs, less a a = false) ∧
  (∀ a ∈ xs, ∀ b ∈ xs, ∀ c ∈ xs, less a b = true → less b c = true → less a c = true) ∧
  (∀ a ∈ xs, ∀ b ∈ xs, ∀ c ∈ xs, less a b = false → less b a = false →
    less b c = false → less c b = false → less a c = false ∧ less c a = false)

/-- The documented contract of `sort.Slice`: the slice is rearranged, and when `less` is
a strict weak ordering no element is less than one placed before it.  Nothing is said
about the order of elements that compare equal. -/
def SortSliceContract
    (sortSlice : (ServiceCost → ServiceCost → Bool) → List ServiceCost → List ServiceCost) :
    Prop :=
  ∀ less xs, (sortSlice less xs).Perm xs ∧
    (StrictWeakOn less xs → (sortSlice less xs).Pairwise (fun a b => less b a = false))

/-- Inserts `x` before the first element it is less than, so after every element it
ties with. -/
def insertBefore (less : ServiceCost → ServiceCost → Bool) (x : ServiceCost) :
    List ServiceCost → List ServiceCost
  | [] => [x]
  | y :: ys => if less x y then x :: y :: ys else y :: insertBefore less x ys

/-- Insertion sort building the result from the last element backwards, one
implementation that meets `SortSliceContract`; elements that compare equal come out in
the reverse of their original order. -/
def insertionSort (less : ServiceCost → ServiceCost → Bool) :
    List ServiceCost → List ServiceCost
  | [] => []
  | x :: xs => insertBefore less x (insertionSort less xs)

/-- The service a group stands for, in the words of the specification: its first key
with its parsed "UnblendedCost" amount (zero when the amount does not parse); a group
without a key or without that amount stands for none. -/
def groupService (lib : StdLib) (group : Group) : Option ServiceCost :=
  match group.Keys, group.Metrics.lookup "UnblendedCost" with
  | serviceName :: _, some cost =>
    match cost.Amount with
    | some str => some { Service := serviceName, Cost := (lib.scanFloat str).getD (F64.fin 0) }
    | none => none
  | _, _ => none

/-- The groups whose parsed amount is above zero, as services in the order of the
response. -/
def retained (lib : StdLib) (groups : List Group) : List ServiceCost :=
  (groups.filterMap (groupService lib)).filter (fun s => s.Cost.gt (F64.fin 0))

/-- The groups of the first result of a response, none when the response is empty. -/
def firstGroups (results : List ResultByTime) : List Group :=
  match results with
  | [] => []
  | r :: _ => r.Groups

/-- The rearrangement `out` of `xs` is stable: for every cost, the services of that cost
are in `out` in the same relative order as in `xs`. -/
def StableByCost (xs out : List ServiceCost) : Prop :=
  ∀ cost : F64, out.filter (fun s => decide (s.Cost = cost)) =
    xs.filter (fun s => decide (s.Cost = cost))

/-! ## Concrete inputs for the examples -/

/-- The float64 nearest to the decimal literal 7.34. -/
def f64_7_34 : F64 := F64.fin (2066026329056215 / 281474976710656)

/-- The float64 nearest to the decimal literal 12.34. -/
def f64_12_34 : F64 := F64.fin (3473401212609495 / 281474976710656)

/-- What `Sscanf` with the verb `%f` stores for the amount strings of the examples; every
other string is treated as one that fails to scan. -/
def exampleScan : String → Option F64
  | "5.00" => some (F64.fin 5)
  | "7.34" => some f64_7_34
  | "0.00" => some (F64.fin 0)
  | "12.34" => some f64_12_34
  | "1.00" => some (F64.fin 1)
  | "2.00" => some (F64.fin 2)
  | "3.00" => some (F64.fin 3)
  | "4.00" => some (F64.fin 4)
  | "6.00" => some (F64.fin 6)
  | "7.00" => some (F64.fin 7)
  | "8.00" => some (F64.fin 8)
  | "9.00" => some (F64.fin 9)
  | "10.00" => some (F64.fin 10)
  | "11.00" => some (F64.fin 11)
  | "12.00" => some (F64.fin 12)
  | _ => none

/-- Decimal digits of `n`, padded with zeros on the left to at least `width` digits. -/
def padDigits (n width : Nat) : String :=
  let s := toString n
  String.mk (List.replicate (width - s.length) '0') ++ s

/-- The verb `%.nf` of `fmt.Sprintf` on a float64: the value rounded to `prec` decimals,
ties to even. -/
def formatFixed (prec : Nat) : F64 → String
  | F64.nan => "NaN"
  | F64.pinf => "+Inf"
  | F64.ninf => "-Inf"
  | F64.fin q =>
    let scaled : ℚ := |q| * (10 : ℚ) ^ prec
    let fl : Nat := scaled.floor.toNat
    let rem : ℚ := scaled - fl
    let r : Nat :=
      if rem < 1 / 2 then fl
      else if 1 / 2 < rem then fl + 1
      else if fl % 2 = 0 then fl else fl + 1
    let whole := toString (r / 10 ^ prec)
    let frac := if prec = 0 then "" else "." ++ padDigits (r % 10 ^ prec) prec
    (if q < 0 then "-" else "") ++ whole ++ frac

/-- Sum of two float64 values, exact on finite operands (the float64 sum whenever the
exact sum is representable). -/
def exactAdd : F64 → F64 → F64
  | F64.nan, _ => F64.nan
  | _, F64.nan => F64.nan
  | F64.pinf, F64.ninf => F64.nan
  | F64.ninf, F64.pinf => F64.nan
  | F64.pinf, _ => F64.pinf
  | _, F64.pinf => F64.pinf
  | F64.ninf, _ => F64.ninf
  | _, F64.ninf => F64.ninf
  | F64.fin a, F64.fin b => F64.fin (a + b)

/-- A standard library for the examples. -/
def exampleLib : StdLib :=
  { scanFloat := exampleScan
    formatFloat := formatFixed
    sortSlice := insertionSort
    addFloat := exactAdd }

/-- A group of the billing response carrying one service name and one amount string. -/
def exampleGroup (name amount : String) : Group :=
  { Keys := [name]
    Metrics := [("UnblendedCost", { Amount := some amount, Unit := some "USD" })] }

/-- A mocked billing API: the total query answers with the amount string `total`, the
query grouped by service with `groups`, and the forecast is 3.00. -/
def mockClient (total : String) (groups : List Group) : CostClient :=
  { client :=
      { GetCostAndUsage := fun input =>
          if input.GroupBy = [] then
            .ok { ResultsByTime :=
                    [{ Total := [("UnblendedCost", { Amount := some total, Unit := some "USD" })]
                       Groups := [] }] }
          else
            .ok { ResultsByTime := [{ Total := [], Groups := groups }] }
        GetCostForecast := fun _ =>
          .ok { Total := some { Amount := some "3.00", Unit := some "USD" } } } }

/-- The mocked billing API of the example: total 12.34, and the groups A: 5.00,
B: 7.34, C: 0.00. -/
def exampleClient : CostClient :=
  mockClient "12.34"
    [exampleGroup "A" "5.00", exampleGroup "B" "7.34", exampleGroup "C" "0.00"]

/-- Thirteen service groups in increasing order of cost, E and F both at 5.00. -/
def tieGroups : List Group :=
  [exampleGroup "A" "1.00", exampleGroup "B" "2.00", exampleGroup "C" "3.00",
   exampleGroup "D" "4.00", exampleGroup "E" "5.00", exampleGroup "F" "5.00",
   exampleGroup "G" "6.00", exampleGroup "H" "7.00", exampleGroup "I" "8.00",
   exampleGroup "J" "9.00", exampleGroup "K" "10.00", exampleGroup "L" "11.00",
   exampleGroup "M" "12.00"]

/-- The services of `tieGroups`, in the order of the response. -/
def tieServices : List ServiceCost :=
  [{ Service := "A", Cost := F64.fin 1 }, { Service := "B", Cost := F64.fin 2 },
   { Service := "C", Cost := F64.fin 3 }, { Service := "D", Cost := F64.fin 4 },
   { Service := "E", Cost := F64.fin 5 }, { Service := "F", Cost := F64.fin 5 },
   { Service := "G", Cost := F64.fin 6 }, { Service := "H", Cost := F64.fin 7 },
   { Service := "I", Cost := F64.fin 8 }, { Service := "J", Cost := F64.fin 9 },
   { Service := "K", Cost := F64.fin 10 }, { Service := "L", Cost := F64.fin 11 },
   { Service := "M", Cost := F64.fin 12 }]

/-- A billing API whose response is `tieGroups`, with total 12.34. -/
def tieClient : CostClient :=
  mockClient "12.34" tieGroups

/-- Location `time.UTC`. -/
def utc : Location := { initial := 0, tx := [] }

/-- The zone America/Asuncion around 2023: four hours behind UTC, three during summer
time, which began on 1 October 2023 at local midnight (04:00 UTC), the clock jumping to
01:00, and ended on 26 March 2023 and 24 March 2024 at 03:00 UTC. -/
def asuncion : Location :=
  { initial := -10800
    tx := [(1679799600, -14400), (1696132800, -10800), (1711249200, -14400)] }

/-- A date for the examples: 15 December 2024, 12:00, in UTC. -/
def exampleDate : Time := { unix := 1734264000, loc := utc }

/-- Noon of 15 October 2023 in America/Asuncion. -/
def asuncionMidOctober : Time := { unix := 1697382000, loc := asuncion }

/-- Noon of 30 September 2023 in America/Asuncion. -/
def asuncionEndSeptember : Time := { unix := 1696089600, loc := asuncion }

/-- Noon of 1 October 2023 in America/Asuncion. -/
def asuncionFirstOctober : Time := { unix := 1696172400, loc := asuncion }

/-- A run against a billing API that reports a total of 0.00 and no service, with
notifications disabled. -/
def skipEnv : RunEnv Unit :=
  { newCostClient := .ok (mockClient "0.00" [])
    nowDaily := exampleDate
    nowMonthly := exampleDate
    debug := false
    slackEnabled := false
    newSlackNotifier := .error "not configured" }

/-- A run against the billing API of the example, with notifications disabled. -/
def exampleEnv : RunEnv Unit :=
  { newCostClient := .ok exampleClient
    nowDaily := exampleDate
    nowMonthly := exampleDate
    debug := false
    slackEnabled := false
    newSlackNotifier := .error "not configured" }

/-- A daily summary with twelve services, for the examples. -/
def exampleDaily : DailyCostSummary :=
  { Date := "2024-12-14"
    TotalCost := f64_12_34
    Currency := "USD"
    Services := (List.range 12).map
      (fun (i : Nat) => { Service := "service-" ++ toString i, Cost := F64.fin (12 - (i : ℚ)) }) }

/-- A monthly summary whose forecast differs from the month-to-date cost. -/
def exampleMonthly : MonthlyCostSummary :=
  { MonthToDate := F64.fin 100, Forecast := F64.fin 250, Currency := "USD" }

/-! ## Properties -/

/-! ### float64 comparisons -/

theorem F64.lt_irrefl (a : F64) : a.lt a = false := by
  cases a <;> simp [F64.lt]

theorem F64.lt_transitive {a b c : F64} (hab : a.lt b = true) (hbc : b.lt c = true) :
    a.lt c = true := by
  cases a <;> cases b <;> cases c <;> simp_all [F64.lt]
  exact lt_trans hab hbc

theorem F64.ne_nan_of_pos {a : F64} (h : a.gt (F64.fin 0) = true) : a ≠ F64.nan := by
  intro hn
  subst hn
  simp [F64.gt, F64.lt] at h

theorem F64.eq_of_not_lt {a b : F64} (ha : a ≠ F64.nan) (hb : b ≠ F64.nan)
    (hab : a.lt b = false) (hba : b.lt a = false) : a = b := by
  cases a <;> cases b <;> simp_all [F64.lt]
  exact le_antisymm hba hab

theorem F64.ge_of_not_lt {a b : F64} (ha : a ≠ F64.nan) (hb : b ≠ F64.nan)
    (hab : a.lt b = false) : a.ge b = true := by
  cases a <;> cases b <;> simp_all [F64.lt, F64.ge]

theorem F64.eq_or_gt_of_ge {a b : F64} (h : a.ge b = true) : a = b ∨ a.gt b = true := by
  cases a <;> cases b <;> simp_all [F64.lt, F64.ge, F64.gt]
  exact (eq_or_lt_of_le h).imp Eq.symm id

theorem F64.lt_false_of_ge {a b : F64} (h : a.ge b = true) : a.lt b = false := by
  cases a <;> cases b <;> simp_all [F64.lt, F64.ge]

theorem F64.ge_false_of_lt {a b : F64} (h : a.lt b = true) : a.ge b = false := by
  cases a <;> cases b <;> simp_all [F64.lt, F64.ge]

/-! ### Sorting -/

theorem insertBefore_perm (less : ServiceCost → ServiceCost → Bool) (x : ServiceCost)
    (l : List ServiceCost) : (insertBefore less x l).Perm (x :: l) := by
  induction l with
  | nil => simp [insertBefore]
  | cons y ys ih =>
    unfold insertBefore
    split
    · exact List.Perm.refl _
    · exact (List.Perm.cons y ih).trans (List.Perm.swap x y ys)

theorem insertionSort_perm (less : ServiceCost → ServiceCost → Bool)
    (l : List ServiceCost) : (insertionSort less l).Perm l := by
  induction l with
  | nil => simp [insertionSort]
  | cons x xs ih =>
    unfold insertionSort
    exact (insertBefore_perm less x _).trans (List.Perm.cons x ih)

theorem insertBefore_pairwise (less : ServiceCost → ServiceCost → Bool) (x : ServiceCost)
    (l : List ServiceCost)
    (hirr : ∀ a ∈ x :: l, less a a = false)
    (htr : ∀ a ∈ x :: l, ∀ b ∈ x :: l, ∀ c ∈ x :: l,
      less a b = true → less b c = true → less a c = true)
    (hl : l.Pairwise (fun a b => less b a = false)) :
    (insertBefore less x l).Pairwise (fun a b => less b a = false) := by
  induction l with
  | nil => simp [insertBefore]
  | cons y ys ih =>
    have hy : ∀ z ∈ ys, less z y = false := (List.pairwise_cons.mp hl).1
    have hys : ys.Pairwise (fun a b => less b a = false) := (List.pairwise_cons.mp hl).2
    unfold insertBefore
    split
    · rename_i hxy
      refine List.pairwise_cons.mpr ⟨?_, hl⟩
      intro z hz
      rcases List.mem_cons.mp hz with hzy | hzys
      · subst hzy
        by_contra hc
        have hc1 : less z x = true := by simpa using hc
        have := htr x (by simp) z (by simp) x (by simp) hxy hc1
        rw [hirr x (by simp)] at this
        exact Bool.noConfusion this
      · by_contra hc
        have hc1 : less z x = true := by simpa using hc
        have hzy : less z y = true :=
          htr z (by simp [hzys]) x (by simp) y (by simp) hc1 hxy
        rw [hy z hzys] at hzy
        exact Bool.noConfusion hzy
    · rename_i hxy
      have hxy1 : less x y = false := by simpa using hxy
      have ih1 := ih
        (fun a ha => hirr a (by
          rcases List.mem_cons.mp ha with h | h
          · simp [h]
          · simp [h]))
        (fun a ha b hb c hc => htr a (by
          rcases List.mem_cons.mp ha with h | h
          · simp [h]
          · simp [h]) b (by
          rcases List.mem_cons.mp hb with h | h
          · simp [h]
          · simp [h]) c (by
          rcases List.mem_cons.mp hc with h | h
          · simp [h]
          · simp [h]))
        hys
      refine List.pairwise_cons.mpr ⟨?_, ih1⟩
      intro z hz
      have hz1 : z ∈ x :: ys := (insertBefore_perm less x ys).subset hz
      rcases List.mem_cons.mp hz1 with h | h
      · subst h
        exact hxy1
      · exact hy z h

theorem insertionSort_pairwise (less : ServiceCost → ServiceCost → Bool)
    (l : List ServiceCost)
    (hirr : ∀ a ∈ l, less a a = false)
    (htr : ∀ a ∈ l, ∀ b ∈ l, ∀ c ∈ l, less a b = true → less b c = true → less a c = true) :
    (insertionSort less l).Pairwise (fun a b => less b a = false) := by
  induction l with
  | nil => simp [insertionSort]
  | cons x xs ih =>
    unfold insertionSort
    have hsub : ∀ a, a ∈ x :: insertionSort less xs → a ∈ x :: xs := by
      intro a ha
      rcases List.mem_cons.mp ha with h | h
      · simp [h]
      · exact List.mem_cons_of_mem _ ((insertionSort_perm less xs).subset h)
    apply insertBefore_pairwise
    · intro a ha
      exact hirr a (hsub a ha)
    · intro a ha b hb c hc
      exact htr a (hsub a ha) b (hsub b hb) c (hsub c hc)
    · exact ih (fun a ha => hirr a (List.mem_cons_of_mem _ ha))
        (fun a ha b hb c hc => htr a (List.mem_cons_of_mem _ ha) b
          (List.mem_cons_of_mem _ hb) c (List.mem_cons_of_mem _ hc))

theorem insertionSort_contract : SortSliceContract insertionSort := by
  intro less xs
  refine ⟨insertionSort_perm less xs, ?_⟩
  intro h
  exact insertionSort_pairwise less xs h.1 h.2.1

theorem costGreater_strictWeakOn (xs : List ServiceCost)
    (hpos : ∀ s ∈ xs, s.Cost.gt (F64.fin 0) = true) : StrictWeakOn costGreater xs := by
  refine ⟨?_, ?_, ?_⟩
  · intro a _
    exact F64.lt_irrefl a.Cost
  · intro a _ b _ c _ hab hbc
    exact F64.lt_transitive hbc hab
  · intro a ha b hb c hc hab hba hbc hcb
    have na := F64.ne_nan_of_pos (hpos a ha)
    have nb := F64.ne_nan_of_pos (hpos b hb)
    have nc := F64.ne_nan_of_pos (hpos c hc)
    have e1 : b.Cost = a.Cost := F64.eq_of_not_lt nb na hab hba
    have e2 : c.Cost = b.Cost := F64.eq_of_not_lt nc nb hbc hcb
    unfold costGreater F64.gt
    rw [e2, e1]
    exact ⟨F64.lt_irrefl _, F64.lt_irrefl _⟩

/-! ### Collecting the services -/

theorem sscanfFloat_eq_getD (lib : StdLib) (str : String) :
    sscanfFloat lib str F64.zero = (lib.scanFloat str).getD (F64.fin 0) := by
  unfold sscanfFloat
  cases lib.scanFloat str <;> rfl

theorem lookup_length_pos {β : Type} (m : List (String × β)) (k : String) (v : β)
    (h : m.lookup k = some v) : m.length > 0 := by
  cases m with
  | nil => simp at h
  | cons x xs => simp

theorem appendService_eq (lib : StdLib) (acc : List ServiceCost) (group : Group) :
    appendService lib acc group =
      acc ++ ((groupService lib group).toList.filter (fun s => s.Cost.gt (F64.fin 0))) := by
  unfold appendService groupService
  rcases hk : group.Keys with _ | ⟨name, rest⟩
  · simp
  · rcases hm : group.Metrics.lookup "UnblendedCost" with _ | cost
    · simp
    · have hlen : group.Metrics.length > 0 := lookup_length_pos _ _ _ hm
      rcases ha : cost.Amount with _ | str
      · simp [ha]
      · simp only [List.length_cons, gt_iff_lt, Nat.zero_lt_succ, hlen, and_self, if_true,
          ha, sscanfFloat_eq_getD]
        by_cases hpos : ((lib.scanFloat str).getD (F64.fin 0)).gt (F64.fin 0) = true
        · simp [hpos]
        · simp [hpos]

theorem foldl_appendService (lib : StdLib) (groups : List Group) (acc : List ServiceCost) :
    groups.foldl (appendService lib) acc = acc ++ retained lib groups := by
  induction groups generalizing acc with
  | nil => simp [retained]
  | cons g gs ih =>
    rw [List.foldl_cons, ih, appendService_eq]
    unfold retained
    cases hg : groupService lib g with
    | none => simp [List.filterMap_cons, hg]
    | some sv =>
      simp only [List.filterMap_cons, hg, List.filter_cons, Option.toList, List.filter_nil]
      split <;> simp

theorem collectServices_eq_retained (lib : StdLib) (results : List ResultByTime) :
    collectServices lib results = retained lib (firstGroups results) := by
  cases results with
  | nil => simp [collectServices, firstGroups, retained]
  | cons r rs => simp [collectServices, firstGroups, foldl_appendService]

theorem groupService_exampleGroup (lib : StdLib) (name amount : String) :
    groupService lib (exampleGroup name amount) =
      some { Service := name, Cost := (lib.scanFloat amount).getD (F64.fin 0) } := by
  simp [groupService, exampleGroup, List.lookup]

theorem retained_pos (lib : StdLib) (groups : List Group) :
    ∀ s ∈ retained lib groups, s.Cost.gt (F64.fin 0) = true := by
  intro s hs
  unfold retained at hs
  exact (List.mem_filter.mp hs).2

/-- C1: `getColorByAmount` returns "danger" when amount >= 100, "warning" when
50 <= amount < 100 and "good" when amount < 50; 99.99 gives "warning", 100.00 gives
"danger" and 49.99 gives "good". -/
theorem getColorByAmount_thresholds (amount : F64) :
    (amount.ge (F64.fin 100) = true → getColorByAmount amount = "danger") ∧
    (amount.ge (F64.fin 50) = true → amount.lt (F64.fin 100) = true →
      getColorByAmount amount = "warning") ∧
    (amount.lt (F64.fin 50) = true → getColorByAmount amount = "good") ∧
    getColorByAmount f64_99_99 = "warning" ∧
    getColorByAmount (F64.fin 100) = "danger" ∧
    getColorByAmount f64_49_99 = "good" := by
  refine ⟨?_, ?_, ?_, ?_, ?_, ?_⟩
  · intro h
    simp [getColorByAmount, h]
  · intro h50 h100
    simp [getColorByAmount, h50, F64.ge_false_of_lt h100]
  · intro h
    have h1 : amount.ge (F64.fin 50) = false := F64.ge_false_of_lt h
    have h2 : amount.ge (F64.fin 100) = false := by
      cases amount <;> simp_all [F64.lt, F64.ge]
      linarith
    simp [getColorByAmount, h1, h2]
  · norm_num [getColorByAmount, f64_99_99, F64.ge]
  · norm_num [getColorByAmount, F64.ge]
  · norm_num [getColorByAmount, f64_49_99, F64.ge]

/-- Witness for C1 at the amount 75. -/
theorem getColorByAmount_thresholds_witness :
    (F64.fin 75).ge (F64.fin 50) = true ∧ (F64.fin 75).lt (F64.fin 100) = true ∧
    getColorByAmount (F64.fin 75) = "warning" :=
  have h50 : (F64.fin 75).ge (F64.fin 50) = true := by norm_num [F64.ge]
  have h100 : (F64.fin 75).lt (F64.fin 100) = true := by norm_num [F64.lt]
  ⟨h50, h100, (getColorByAmount_thresholds (F64.fin 75)).2.1 h50 h100⟩

/-! ### The daily summary -/

theorem getDailyCost_ok (lib : StdLib) (c : CostClient) (date : Time)
    (totalResult serviceResult : GetCostAndUsageOutput)
    (htotal : c.client.GetCostAndUsage (totalInput date) = .ok totalResult)
    (hservice : c.client.GetCostAndUsage (serviceInput date) = .ok serviceResult) :
    (getDailyCost lib c date).2 =
      .ok { Date := date.Format
            TotalCost := (readTotal lib totalResult.ResultsByTime).1
            Currency := (readTotal lib totalResult.ResultsByTime).2
            Services := lib.sortSlice costGreater
              (retained lib (firstGroups serviceResult.ResultsByTime)) } := by
  unfold getDailyCost
  simp only [htotal, hservice, collectServices_eq_retained]

theorem readTotal_amount (lib : StdLib) (r : ResultByTime) (rest : List ResultByTime)
    (cost : MetricValue) (str : String)
    (hcost : r.Total.lookup "UnblendedCost" = some cost) (hstr : cost.Amount = some str) :
    (readTotal lib (r :: rest)).1 = (lib.scanFloat str).getD (F64.fin 0) := by
  have hlen : r.Total.length > 0 := lookup_length_pos _ _ _ hcost
  unfold readTotal
  simp only [hlen, if_true, hcost, hstr, sscanfFloat_eq_getD]

theorem sorted_services (lib : StdLib) (hsort : SortSliceContract lib.sortSlice)
    (xs : List ServiceCost) (hpos : ∀ s ∈ xs, s.Cost.gt (F64.fin 0) = true) :
    (lib.sortSlice costGreater xs).Perm xs ∧
    (∀ s ∈ lib.sortSlice costGreater xs, s.Cost.gt (F64.fin 0) = true) ∧
    (lib.sortSlice costGreater xs).Pairwise (fun a b => a.Cost.ge b.Cost = true) := by
  have hp := (hsort costGreater xs).1
  have hs := (hsort costGreater xs).2 (costGreater_strictWeakOn xs hpos)
  have hpos2 : ∀ s ∈ lib.sortSlice costGreater xs, s.Cost.gt (F64.fin 0) = true :=
    fun s hs1 => hpos s (hp.subset hs1)
  refine ⟨hp, hpos2, ?_⟩
  have hboth : (lib.sortSlice costGreater xs).Pairwise
      (fun a b => (a.Cost.gt (F64.fin 0) = true ∧ b.Cost.gt (F64.fin 0) = true) ∧
        costGreater b a = false) :=
    List.Pairwise.and (List.pairwise_of_forall_mem_list (fun a ha b hb =>
      ⟨hpos2 a ha, hpos2 b hb⟩)) hs
  refine hboth.imp ?_
  intro a b h
  exact F64.ge_of_not_lt (F64.ne_nan_of_pos h.1.1) (F64.ne_nan_of_pos h.1.2) h.2

/-- C3: when both billing queries succeed, the `Services` of the summary built by
`getDailyCost` are a rearrangement of exactly the groups whose parsed amount is above
zero (each kept once, none added), every kept cost is above zero, the costs are in
non-increasing order, and `TotalCost` is the parsed amount of the separately fetched
total; with total 12.34 and groups A: 5.00, B: 7.34, C: 0.00 the services are [B, A]
and the total is 12.34.  The sort is any function meeting the contract of `sort.Slice`. -/
theorem getDailyCost_services (lib : StdLib) (hsort : SortSliceContract lib.sortSlice)
    (c : CostClient) (date : Time) (totalResult serviceResult : GetCostAndUsageOutput)
    (htotal : c.client.GetCostAndUsage (totalInput date) = .ok totalResult)
    (hservice : c.client.GetCostAndUsage (serviceInput date) = .ok serviceResult) :
    ∃ d, (getDailyCost lib c date).2 = .ok d ∧
      d.Services.Perm (retained lib (firstGroups serviceResult.ResultsByTime)) ∧
      (∀ s ∈ d.Services, s.Cost.gt (F64.fin 0) = true) ∧
      d.Services.Pairwise (fun a b => a.Cost.ge b.Cost = true) ∧
      (∀ r rest cost str x, totalResult.ResultsByTime = r :: rest →
        r.Total.lookup "UnblendedCost" = some cost → cost.Amount = some str →
        lib.scanFloat str = some x → d.TotalCost = x) ∧
      (∀ r rest r2 rest2 u,
        totalResult.ResultsByTime = r :: rest →
        r.Total.lookup "UnblendedCost" = some { Amount := some "12.34", Unit := u } →
        serviceResult.ResultsByTime = r2 :: rest2 →
        r2.Groups = [exampleGroup "A" "5.00", exampleGroup "B" "7.34",
          exampleGroup "C" "0.00"] →
        lib.scanFloat "12.34" = some f64_12_34 → lib.scanFloat "5.00" = some (F64.fin 5) →
        lib.scanFloat "7.34" = some f64_7_34 → lib.scanFloat "0.00" = some (F64.fin 0) →
        d.Services = [{ Service := "B", Cost := f64_7_34 }, { Service := "A", Cost := F64.fin 5 }]
          ∧ d.TotalCost = f64_12_34) := by
  have hsorted := sorted_services lib hsort
    (retained lib (firstGroups serviceResult.ResultsByTime)) (retained_pos lib _)
  have htot : ∀ r rest cost str x, totalResult.ResultsByTime = r :: rest →
      r.Total.lookup "UnblendedCost" = some cost → cost.Amount = some str →
      lib.scanFloat str = some x → (readTotal lib totalResult.ResultsByTime).1 = x := by
    intro r rest cost str x hr hcost hstr hx
    rw [hr, readTotal_amount lib r rest cost str hcost hstr, hx]
    rfl
  refine ⟨_, getDailyCost_ok lib c date totalResult serviceResult htotal hservice,
    hsorted.1, hsorted.2.1, hsorted.2.2, htot, ?_⟩
  intro r rest r2 rest2 u hr hcost hr2 hgroups h1234 h5 h734 h0
  refine ⟨?_, htot r rest _ "12.34" f64_12_34 hr hcost rfl h1234⟩
  have hret : retained lib (firstGroups serviceResult.ResultsByTime) =
      [{ Service := "A", Cost := F64.fin 5 }, { Service := "B", Cost := f64_7_34 }] := by
    rw [hr2]
    simp only [firstGroups, hgroups, retained, List.filterMap_cons, List.filterMap_nil,
      groupService_exampleGroup, h5, h734, h0, Option.getD_some]
    norm_num [List.filter, F64.gt, F64.lt, f64_7_34]
  show lib.sortSlice costGreater (retained lib (firstGroups serviceResult.ResultsByTime)) = _
  rw [hret] at hsorted ⊢
  obtain ⟨hperm, -, hpair⟩ := hsorted
  generalize lib.sortSlice costGreater
    [{ Service := "A", Cost := F64.fin 5 }, { Service := "B", Cost := f64_7_34 }] = out
    at hperm hpair ⊢
  have hlen := hperm.length_eq
  match out, hlen with
  | [x, y], _ =>
    have hA : ({ Service := "A", Cost := F64.fin 5 } : ServiceCost) ∈ [x, y] :=
      hperm.symm.subset (by simp)
    have hB : ({ Service := "B", Cost := f64_7_34 } : ServiceCost) ∈ [x, y] :=
      hperm.symm.subset (by simp)
    have hxy : x.Cost.ge y.Cost = true := by
      simpa using hpair
    have hAB : ({ Service := "A", Cost := F64.fin 5 } : ServiceCost) ≠
        { Service := "B", Cost := f64_7_34 } := by
      intro h
      have h1 := congrArg ServiceCost.Service h
      simp at h1
    simp only [List.mem_cons, List.mem_singleton, List.not_mem_nil, or_false] at hA hB
    rcases hA with hA | hA <;> rcases hB with hB | hB
    · exact absurd (hA.trans hB.symm) hAB
    · subst hA hB
      norm_num [F64.ge, f64_7_34] at hxy
    · subst hA hB
      rfl
    · exact absurd (hA.trans hB.symm) hAB

theorem mockClient_total (total : String) (groups : List Group) (date : Time) :
    (mockClient total groups).client.GetCostAndUsage (totalInput date) =
      .ok { ResultsByTime :=
              [{ Total := [("UnblendedCost", { Amount := some total, Unit := some "USD" })]
                 Groups := [] }] } := by
  simp [mockClient, totalInput]

theorem mockClient_service (total : String) (groups : List Group) (date : Time) :
    (mockClient total groups).client.GetCostAndUsage (serviceInput date) =
      .ok { ResultsByTime := [{ Total := [], Groups := groups }] } := by
  simp [mockClient, serviceInput]

/-- Witness for C3: the mocked response of the example, with insertion sort as the
sort. -/
theorem getDailyCost_services_witness :
    ∃ d, (getDailyCost exampleLib exampleClient exampleDate).2 = .ok d ∧
      d.Services = [{ Service := "B", Cost := f64_7_34 }, { Service := "A", Cost := F64.fin 5 }]
      ∧ d.TotalCost = f64_12_34 := by
  obtain ⟨d, hd, -, -, -, -, hex⟩ :=
    getDailyCost_services exampleLib insertionSort_contract exampleClient exampleDate _ _
      (mockClient_total _ _ _) (mockClient_service _ _ _)
  exact ⟨d, hd, hex _ [] _ [] (some "USD") rfl rfl rfl rfl rfl rfl rfl rfl⟩

/-! ### Stability of the sort -/

theorem tie_retained : retained exampleLib tieGroups = tieServices := by
  simp only [retained, tieGroups, List.filterMap_cons, List.filterMap_nil,
    groupService_exampleGroup, exampleLib, exampleScan, Option.getD_some]
  norm_num [List.filter, F64.gt, F64.lt, tieServices]

theorem tie_sorted :
    exampleLib.sortSlice costGreater tieServices = tieServices.reverse := by
  simp [exampleLib, tieServices, insertionSort, insertBefore, costGreater, F64.gt, F64.lt]

/-- C4, refuted as stated: a sort meeting the contract of `sort.Slice` need not be
stable.  With insertion sort from the back as the sort and a response of thirteen
groups in increasing order of cost, E: 5.00 before F: 5.00, `getDailyCost` returns the
services in the reverse order of the response, F before E. -/
theorem getDailyCost_not_stable :
    ¬ ∀ (lib : StdLib), SortSliceContract lib.sortSlice →
      ∀ (c : CostClient) (date : Time) (totalResult serviceResult : GetCostAndUsageOutput),
        c.client.GetCostAndUsage (totalInput date) = .ok totalResult →
        c.client.GetCostAndUsage (serviceInput date) = .ok serviceResult →
        ∀ d, (getDailyCost lib c date).2 = .ok d →
          StableByCost (retained lib (firstGroups serviceResult.ResultsByTime)) d.Services := by
  intro h
  have hst := h exampleLib insertionSort_contract tieClient exampleDate _ _
    (mockClient_total _ _ _) (mockClient_service _ _ _) _
    (getDailyCost_ok exampleLib tieClient exampleDate _ _ (mockClient_total _ _ _)
      (mockClient_service _ _ _))
    (F64.fin 5)
  simp only [firstGroups, tie_retained, tie_sorted] at hst
  norm_num [tieServices, List.filter] at hst
  exact absurd hst.1 (by decide)

/-- C4, amended: for any sort meeting the contract of `sort.Slice`, the services of each
cost value in the output are a rearrangement of the retained services of that cost, and
of two services with different costs the one with the higher cost comes first; the
relative order of services with equal cost is not fixed. -/
theorem getDailyCost_order_up_to_ties (lib : StdLib)
    (hsort : SortSliceContract lib.sortSlice)
    (c : CostClient) (date : Time) (totalResult serviceResult : GetCostAndUsageOutput)
    (htotal : c.client.GetCostAndUsage (totalInput date) = .ok totalResult)
    (hservice : c.client.GetCostAndUsage (serviceInput date) = .ok serviceResult) :
    ∃ d, (getDailyCost lib c date).2 = .ok d ∧
      (∀ cost : F64, (d.Services.filter (fun s => decide (s.Cost = cost))).Perm
        ((retained lib (firstGroups serviceResult.ResultsByTime)).filter
          (fun s => decide (s.Cost = cost)))) ∧
      d.Services.Pairwise (fun a b => a.Cost = b.Cost ∨ a.Cost.gt b.Cost = true) := by
  have hsorted := sorted_services lib hsort
    (retained lib (firstGroups serviceResult.ResultsByTime)) (retained_pos lib _)
  refine ⟨_, getDailyCost_ok lib c date totalResult serviceResult htotal hservice, ?_, ?_⟩
  · intro cost
    exact hsorted.1.filter _
  · exact hsorted.2.2.imp (fun h => F64.eq_or_gt_of_ge h)

/-- Witness for the amended C4: the response of thirteen groups with E and F tied. -/
theorem getDailyCost_order_up_to_ties_witness :
    ∃ d, (getDailyCost exampleLib tieClient exampleDate).2 = .ok d ∧
      (∀ cost : F64, (d.Services.filter (fun s => decide (s.Cost = cost))).Perm
        ((retained exampleLib tieGroups).filter (fun s => decide (s.Cost = cost)))) ∧
      d.Services.Pairwise (fun a b => a.Cost = b.Cost ∨ a.Cost.gt b.Cost = true) :=
  getDailyCost_order_up_to_ties exampleLib insertionSort_contract tieClient exampleDate _ _
    (mockClient_total _ _ _) (mockClient_service _ _ _)

/-! ### Lenient parsing -/

theorem groupService_unparsed (lib : StdLib) (g : Group) (cost : MetricValue) (str : String)
    (hcost : g.Metrics.lookup "UnblendedCost" = some cost) (hstr : cost.Amount = some str)
    (hfail : lib.scanFloat str = none) :
    (groupService lib g).toList.filter (fun s => s.Cost.gt (F64.fin 0)) = [] := by
  unfold groupService
  rcases hk : g.Keys with _ | ⟨name, rest⟩
  · simp
  · simp [hcost, hstr, hfail, F64.gt, F64.lt]

theorem retained_append (lib : StdLib) (xs ys : List Group) :
    retained lib (xs ++ ys) = retained lib xs ++ retained lib ys := by
  simp [retained, List.filterMap_append]

theorem retained_cons (lib : StdLib) (g : Group) (gs : List Group) :
    retained lib (g :: gs) =
      (groupService lib g).toList.filter (fun s => s.Cost.gt (F64.fin 0)) ++ retained lib gs := by
  have h := foldl_appendService lib (g :: gs) []
  rw [List.foldl_cons, foldl_appendService, appendService_eq] at h
  simpa using h.symm

/-- C9: an amount string that fails to scan counts as zero and raises no error.  As the
total it gives `TotalCost = 0` in a successful result; as the amount of a service group
it makes the loop skip that group, and the result is the same as for the response
without that group, so the other services are unaffected. -/
theorem getDailyCost_parse_failure (lib : StdLib) (str : String)
    (hfail : lib.scanFloat str = none) :
    sscanfFloat lib str F64.zero = F64.fin 0 ∧
    (∀ (c : CostClient) (date : Time) (totalResult serviceResult : GetCostAndUsageOutput)
      (r : ResultByTime) (rest : List ResultByTime) (cost : MetricValue),
      c.client.GetCostAndUsage (totalInput date) = .ok totalResult →
      c.client.GetCostAndUsage (serviceInput date) = .ok serviceResult →
      totalResult.ResultsByTime = r :: rest →
      r.Total.lookup "UnblendedCost" = some cost → cost.Amount = some str →
      ∃ d, (getDailyCost lib c date).2 = .ok d ∧ d.TotalCost = F64.fin 0) ∧
    (∀ (g : Group) (cost : MetricValue),
      g.Metrics.lookup "UnblendedCost" = some cost → cost.Amount = some str →
      (∀ acc, appendService lib acc g = acc) ∧
      ∀ (c c2 : CostClient) (date : Time) (totalResult : GetCostAndUsageOutput)
        (r r2 : ResultByTime) (rest rest2 : List ResultByTime),
        c.client.GetCostAndUsage (totalInput date) = .ok totalResult →
        c2.client.GetCostAndUsage (totalInput date) = .ok totalResult →
        c.client.GetCostAndUsage (serviceInput date) = .ok { ResultsByTime := r :: rest } →
        c2.client.GetCostAndUsage (serviceInput date) = .ok { ResultsByTime := r2 :: rest2 } →
        ∀ pre post, r.Groups = pre ++ g :: post → r2.Groups = pre ++ post →
          (∃ d, (getDailyCost lib c date).2 = .ok d) ∧
          (getDailyCost lib c date).2 = (getDailyCost lib c2 date).2) := by
  refine ⟨?_, ?_, ?_⟩
  · simp [sscanfFloat, hfail, F64.zero]
  · intro c date totalResult serviceResult r rest cost htotal hservice hr hcost hstr
    refine ⟨_, getDailyCost_ok lib c date totalResult serviceResult htotal hservice, ?_⟩
    show (readTotal lib totalResult.ResultsByTime).1 = F64.fin 0
    rw [hr, readTotal_amount lib r rest cost str hcost hstr, hfail]
    rfl
  · intro g cost hcost hstr
    have hdrop := groupService_unparsed lib g cost str hcost hstr hfail
    refine ⟨?_, ?_⟩
    · intro acc
      rw [appendService_eq, hdrop, List.append_nil]
    · intro c c2 date totalResult r r2 rest rest2 htotal htotal2 hservice hservice2 pre post
        hg hg2
      rw [getDailyCost_ok lib c date _ _ htotal hservice,
        getDailyCost_ok lib c2 date _ _ htotal2 hservice2]
      refine ⟨⟨_, rfl⟩, ?_⟩
      simp only [firstGroups, hg, hg2, retained_append, retained_cons, hdrop, List.nil_append]

/-- Witness for C9: the string "abc", as the total and as the amount of a group X
between the groups A: 5.00 and B: 7.34. -/
theorem getDailyCost_parse_failure_witness :
    exampleLib.scanFloat "abc" = none ∧
    (∃ d, (getDailyCost exampleLib
        (mockClient "abc" [exampleGroup "A" "5.00", exampleGroup "X" "abc",
          exampleGroup "B" "7.34"]) exampleDate).2 = .ok d ∧ d.TotalCost = F64.fin 0) ∧
    (getDailyCost exampleLib
        (mockClient "abc" [exampleGroup "A" "5.00", exampleGroup "X" "abc",
          exampleGroup "B" "7.34"]) exampleDate).2 =
      (getDailyCost exampleLib
        (mockClient "abc" [exampleGroup "A" "5.00", exampleGroup "B" "7.34"])
        exampleDate).2 :=
  have hfail : exampleLib.scanFloat "abc" = none := rfl
  have h := getDailyCost_parse_failure exampleLib "abc" hfail
  ⟨hfail,
    h.2.1 _ exampleDate _ _ _ [] _ (mockClient_total _ _ _) (mockClient_service _ _ _)
      rfl rfl rfl,
    ((h.2.2 (exampleGroup "X" "abc") _ rfl rfl).2 _ _ exampleDate _ _ _ [] []
      (mockClient_total _ _ _) (mockClient_total _ _ _) (mockClient_service _ _ _)
      (mockClient_service _ _ _) [exampleGroup "A" "5.00"] [exampleGroup "B" "7.34"]
      rfl rfl).2⟩

/-! ### The notification message -/

theorem serviceFields_range (lib : StdLib) (services : List ServiceCost) (n : Nat)
    (hn : n ≤ services.length) :
    (List.range n).foldl
      (fun (serviceFields : List AttachmentField) i =>
        match services[i]? with
        | some service =>
          serviceFields ++
            [{ Title := service.Service
               Value := "$" ++ lib.formatFloat 2 service.Cost
               Short := true }]
        | none => serviceFields)
      [] =
    (services.take n).map (fun service =>
      ({ Title := service.Service
         Value := "$" ++ lib.formatFloat 2 service.Cost
         Short := true } : AttachmentField)) := by
  induction n with
  | zero => simp
  | succ k ih =>
    have hk : k < services.length := hn
    rw [List.range_succ, List.foldl_append, ih (Nat.le_of_lt hk), List.take_succ]
    simp only [List.getElem?_eq_getElem hk, Option.toList, List.map_append, List.map_cons,
      List.map_nil, List.foldl_cons, List.foldl_nil]

theorem serviceFields_eq (lib : StdLib) (services : List ServiceCost) :
    serviceFields lib services =
      (services.take 10).map (fun service =>
        ({ Title := service.Service
           Value := "$" ++ lib.formatFloat 2 service.Cost
           Short := true } : AttachmentField)) := by
  unfold serviceFields
  by_cases h : services.length < 10
  · simp only [h, if_true]
    rw [serviceFields_range lib services services.length (Nat.le_refl _)]
    rw [List.take_of_length_le (Nat.le_refl _), List.take_of_length_le (Nat.le_of_lt h)]
  · simp only [h, if_false]
    exact serviceFields_range lib services 10 (Nat.le_of_not_lt h)

/-- C5: the message that `sendCostNotification` passes to `Send` has the daily
attachment first, and its fields are the first min(10, n) services in the same order:
there are exactly min(10, n) fields, and field i has the name of service i as title, its
formatted cost as value and `Short = true`. -/
theorem sendCostNotification_fields {W : Type} (lib : StdLib) (n : Notifier W)
    (daily : DailyCostSummary) (monthly : MonthlyCostSummary) (w : W) :
    ∃ msg first second,
      sendCostNotification lib n daily monthly w = n.Send msg w ∧
      msg.Attachments = [first, second] ∧
      first.Fields.length = min 10 daily.Services.length ∧
      first.Fields.map (fun f => f.Title) = (daily.Services.take 10).map (fun s => s.Service) ∧
      (∀ i, i < min 10 daily.Services.length →
        ∃ service, daily.Services[i]? = some service ∧
          first.Fields[i]? = some { Title := service.Service
                                    Value := "$" ++ lib.formatFloat 2 service.Cost
                                    Short := true }) := by
  refine ⟨costMessage lib daily monthly, _, _, rfl, rfl, ?_, ?_, ?_⟩
  · simp [serviceFields_eq]
  · show List.map _ (serviceFields lib daily.Services) = _
    rw [serviceFields_eq, List.map_map]
    rfl
  · intro i hi
    have h1 : i < daily.Services.length := lt_of_lt_of_le hi (Nat.min_le_right _ _)
    have h2 : i < 10 := lt_of_lt_of_le hi (Nat.min_le_left _ _)
    refine ⟨daily.Services[i], List.getElem?_eq_getElem h1, ?_⟩
    simp [serviceFields_eq, List.getElem?_map, List.getElem?_take, h2,
      List.getElem?_eq_getElem h1]

/-- C6, which the code does not meet: the message that `sendCostNotification` passes to
`Send` has exactly two attachments, the monthly one carries only `MonthToDate`, and the
whole message is the same whatever the value of `monthly.Forecast`. -/
theorem sendCostNotification_ignores_forecast {W : Type} (lib : StdLib) (n : Notifier W)
    (daily : DailyCostSummary) (monthly : MonthlyCostSummary) (forecast : F64) (w : W) :
    sendCostNotification lib n daily { monthly with Forecast := forecast } w =
      sendCostNotification lib n daily monthly w ∧
    sendCostNotification lib n daily monthly w = n.Send (costMessage lib daily monthly) w ∧
    (costMessage lib daily monthly).Attachments =
      [{ Color := getColorByAmount daily.TotalCost
         Title := "前日のコスト (" ++ daily.Date ++ ")"
         Text := "*$" ++ lib.formatFloat 2 daily.TotalCost ++ "* " ++ daily.Currency
         Fields := serviceFields lib daily.Services },
       { Color := getColorByAmount monthly.MonthToDate
         Title := "当月の累計"
         Fields := [{ Title := "月初から現在まで"
                      Value := "$" ++ lib.formatFloat 2 monthly.MonthToDate
                      Short := false }] }] :=
  ⟨rfl, rfl, rfl⟩

/-! ### The disabled notifier -/

/-- C8: every send operation of `NullNotifier` returns no error and leaves the outside
world as it was, for every input, also when called through the `Notifier` interface,
and `IsEnabled` is false. -/
theorem nullNotifier_noop {W : Type} (n : NullNotifier) (w : W) (msg : String)
    (opts : List MessageOption) (att : Option Attachment) (m : Message) :
    n.SendMessage msg opts w = (none, w) ∧
    n.SendInfo msg opts w = (none, w) ∧
    n.SendWarning msg opts w = (none, w) ∧
    n.SendError msg opts w = (none, w) ∧
    n.SendSuccess msg opts w = (none, w) ∧
    n.SendAttachment att w = (none, w) ∧
    n.Send m w = (none, w) ∧
    n.IsEnabled = false ∧
    (n.toNotifier : Notifier W).SendMessage msg opts w = (none, w) ∧
    (n.toNotifier : Notifier W).SendInfo msg opts w = (none, w) ∧
    (n.toNotifier : Notifier W).SendWarning msg opts w = (none, w) ∧
    (n.toNotifier : Notifier W).SendError msg opts w = (none, w) ∧
    (n.toNotifier : Notifier W).SendSuccess msg opts w = (none, w) ∧
    (n.toNotifier : Notifier W).SendAttachment att w = (none, w) ∧
    (n.toNotifier : Notifier W).Send m w = (none, w) ∧
    (n.toNotifier : Notifier W).IsEnabled = false :=
  ⟨rfl, rfl, rfl, rfl, rfl, rfl, rfl, rfl, rfl, rfl, rfl, rfl, rfl, rfl, rfl, rfl⟩

/-! ### The command -/

/-- C2: in a run in which `GetYesterdayCost` succeeds, if `TotalCost < 0.01` (the
float64 constant) the run returns normally, with no call of `GetMonthlyForecast`, no
call of `Send` and the outside world untouched; if `TotalCost >= 0.01` the monthly query
is made, and no `Send` comes before it. -/
theorem Run_skip_threshold {W : Type} (lib : StdLib) (env : RunEnv W) (w : W)
    (costClient : CostClient) (dailyCost : DailyCostSummary)
    (hclient : env.newCostClient = .ok costClient)
    (hdaily : (GetYesterdayCost lib costClient env.nowDaily).2 = .ok dailyCost) :
    (dailyCost.TotalCost.lt f64_0_01 = true →
      (Run lib env w).outcome = Outcome.returned ∧
      Event.getMonthlyForecast ∉ (Run lib env w).events ∧
      (∀ msg, Event.send msg ∉ (Run lib env w).events) ∧
      (Run lib env w).world = w) ∧
    (dailyCost.TotalCost.ge f64_0_01 = true →
      ∃ pre post, (Run lib env w).events = pre ++ Event.getMonthlyForecast :: post ∧
        ∀ msg, Event.send msg ∉ pre) := by
  constructor
  · intro hlt
    unfold Run
    simp only [hclient, hdaily, hlt, if_true, true_and, and_true]
    refine ⟨?_, ?_⟩
    · split <;> simp
    · intro msg
      split <;> simp
  · intro hge
    have hlt : dailyCost.TotalCost.lt f64_0_01 = false := F64.lt_false_of_ge hge
    have hpre : ∀ msg, Event.send msg ∉ [Event.getYesterdayCost] ++
        (if env.debug then
          [Event.stdout ("[DEBUG] 前日のコスト: $" ++ lib.formatFloat 6 dailyCost.TotalCost
            ++ " " ++ dailyCost.Currency)]
        else []) := by
      intro msg
      split <;> simp
    unfold Run
    simp only [hclient, hdaily, hlt, Bool.false_eq_true, if_false]
    split
    · exact ⟨[Event.getYesterdayCost] ++
        (if env.debug then
          [Event.stdout ("[DEBUG] 前日のコスト: $" ++ lib.formatFloat 6 dailyCost.TotalCost
            ++ " " ++ dailyCost.Currency)]
        else []), _, rfl, hpre⟩
    · split
      · exact ⟨[Event.getYesterdayCost] ++
          (if env.debug then
            [Event.stdout ("[DEBUG] 前日のコスト: $" ++ lib.formatFloat 6 dailyCost.TotalCost
              ++ " " ++ dailyCost.Currency)]
          else []), _, rfl, hpre⟩
      · exact ⟨[Event.getYesterdayCost] ++
          (if env.debug then
            [Event.stdout ("[DEBUG] 前日のコスト: $" ++ lib.formatFloat 6 dailyCost.TotalCost
              ++ " " ++ dailyCost.Currency)]
          else []), _, rfl, hpre⟩

theorem mockClient_readTotal (total : String) (x : F64)
    (hx : exampleLib.scanFloat total = some x) :
    (readTotal exampleLib
      [{ Total := [("UnblendedCost", { Amount := some total, Unit := some "USD" })]
         Groups := [] }]).1 = x := by
  rw [readTotal_amount exampleLib _ [] { Amount := some total, Unit := some "USD" } total
    (by simp [List.lookup]) rfl, hx]
  rfl

/-- Witness for C2: a run with total 0.00 is skipped, and a run with total 12.34 makes the
monthly query before it sends. -/
theorem Run_skip_threshold_witness :
    ((Run exampleLib skipEnv ()).outcome = Outcome.returned ∧
      Event.getMonthlyForecast ∉ (Run exampleLib skipEnv ()).events ∧
      (∀ msg, Event.send msg ∉ (Run exampleLib skipEnv ()).events) ∧
      (Run exampleLib skipEnv ()).world = ()) ∧
    (∃ pre post, (Run exampleLib exampleEnv ()).events =
        pre ++ Event.getMonthlyForecast :: post ∧ ∀ msg, Event.send msg ∉ pre) :=
  ⟨(Run_skip_threshold exampleLib skipEnv () (mockClient "0.00" []) _ rfl
      (getDailyCost_ok exampleLib _ _ _ _ (mockClient_total _ _ _)
        (mockClient_service _ _ _))).1
      (by
        show F64.lt (readTotal exampleLib _).1 f64_0_01 = true
        rw [mockClient_readTotal "0.00" (F64.fin 0) rfl]
        norm_num [F64.lt, f64_0_01]),
   (Run_skip_threshold exampleLib exampleEnv () exampleClient _ rfl
      (getDailyCost_ok exampleLib _ _ _ _ (mockClient_total _ _ _)
        (mockClient_service _ _ _))).2
      (by
        show F64.ge (readTotal exampleLib _).1 f64_0_01 = true
        rw [mockClient_readTotal "12.34" f64_12_34 rfl]
        norm_num [F64.ge, f64_0_01, f64_12_34])⟩

/-- Witness for C5: a summary with twelve services gives ten fields, the first of them
for the first service. -/
theorem sendCostNotification_fields_witness :
    ∃ msg first second,
      sendCostNotification exampleLib (NewNullNotifier.toNotifier : Notifier Unit)
        exampleDaily exampleMonthly () =
        (NewNullNotifier.toNotifier : Notifier Unit).Send msg () ∧
      msg.Attachments = [first, second] ∧
      first.Fields.length = 10 ∧
      ∃ service, exampleDaily.Services[0]? = some service ∧
        first.Fields[0]? = some { Title := service.Service
                                  Value := "$" ++ exampleLib.formatFloat 2 service.Cost
                                  Short := true } := by
  obtain ⟨msg, first, second, hsend, hatt, hlen, -, hfield⟩ :=
    sendCostNotification_fields exampleLib (NewNullNotifier.toNotifier : Notifier Unit)
      exampleDaily exampleMonthly ()
  have hl : exampleDaily.Services.length = 12 := by
    simp only [exampleDaily, List.length_map, List.length_range]
  refine ⟨msg, first, second, hsend, hatt, ?_, hfield 0 ?_⟩
  · rw [hlen, hl]
    rfl
  · rw [hl]
    decide

/-! ### The periods of the monthly queries -/

theorem GetMonthlyForecast_calls (lib : StdLib) (c : CostClient) (now : Time) :
    ((GetMonthlyForecast lib c now).1 = [ApiCall.costAndUsage (mtdInput now)] ∨
      (GetMonthlyForecast lib c now).1 =
        [ApiCall.costAndUsage (mtdInput now), ApiCall.costForecast (forecastInput now)]) ∧
    (∀ out, c.client.GetCostAndUsage (mtdInput now) = .ok out →
      (GetMonthlyForecast lib c now).1 =
        [ApiCall.costAndUsage (mtdInput now), ApiCall.costForecast (forecastInput now)]) := by
  unfold GetMonthlyForecast
  constructor
  · split
    · exact Or.inl rfl
    · split
      · exact Or.inr rfl
      · exact Or.inr rfl
  · intro out hout
    simp only [hout]
    split <;> rfl

/-- C7, which the code does not meet in a location whose clock skips the midnight that
starts a month.  In America/Asuncion, at noon of 15 October 2023, `GetMonthlyForecast`
sends the month-to-date query for the period 2023-09-30 to 2023-10-15, not from
2023-10-01; at noon of 30 September 2023 it sends the forecast request for the period
2023-09-30 to 2023-09-30, not to 2023-10-01.  In UTC, at noon of 15 December 2024, the
periods are 2024-12-01 to 2024-12-15 and 2024-12-15 to 2025-01-01. -/
theorem GetMonthlyForecast_periods_asuncion :
    asuncionMidOctober.Date = (2023, 10, 15) ∧
    (GetMonthlyForecast exampleLib exampleClient asuncionMidOctober).1 =
      [ApiCall.costAndUsage (mtdInput asuncionMidOctober),
       ApiCall.costForecast (forecastInput asuncionMidOctober)] ∧
    (mtdInput asuncionMidOctober).TimePeriod =
      { Start := "2023-09-30", End := "2023-10-15" } ∧
    (forecastInput asuncionMidOctober).TimePeriod =
      { Start := "2023-10-15", End := "2023-11-01" } ∧
    asuncionEndSeptember.Date = (2023, 9, 30) ∧
    (mtdInput asuncionEndSeptember).TimePeriod =
      { Start := "2023-09-01", End := "2023-09-30" } ∧
    (forecastInput asuncionEndSeptember).TimePeriod =
      { Start := "2023-09-30", End := "2023-09-30" } ∧
    exampleDate.Date = (2024, 12, 15) ∧
    (mtdInput exampleDate).TimePeriod = { Start := "2024-12-01", End := "2024-12-15" } ∧
    (forecastInput exampleDate).TimePeriod =
      { Start := "2024-12-15", End := "2025-01-01" } := by
  refine ⟨by decide, ?_, by decide, by decide, by decide, by decide, by decide, by decide,
    by decide, by decide⟩
  exact (GetMonthlyForecast_calls exampleLib exampleClient asuncionMidOctober).2 _ rfl

/-- C10, which the code does not meet in a location whose clock skips the midnight that
starts a month.  In America/Asuncion, at noon of 30 September 2023, the forecast period
sent by `GetMonthlyForecast` has its start equal to its end (an empty period); at noon
of 1 October 2023 the current day is 1 and the month-to-date period sent is 2023-09-30
to 2023-10-01, its start different from its end. -/
theorem GetMonthlyForecast_period_order_asuncion :
    (GetMonthlyForecast exampleLib exampleClient asuncionEndSeptember).1 =
      [ApiCall.costAndUsage (mtdInput asuncionEndSeptember),
       ApiCall.costForecast (forecastInput asuncionEndSeptember)] ∧
    (forecastInput asuncionEndSeptember).TimePeriod.Start =
      (forecastInput asuncionEndSeptember).TimePeriod.End ∧
    asuncionFirstOctober.Day = 1 ∧
    (GetMonthlyForecast exampleLib exampleClient asuncionFirstOctober).1 =
      [ApiCall.costAndUsage (mtdInput asuncionFirstOctober),
       ApiCall.costForecast (forecastInput asuncionFirstOctober)] ∧
    (mtdInput asuncionFirstOctober).TimePeriod =
      { Start := "2023-09-30", End := "2023-10-01" } ∧
    (mtdInput asuncionFirstOctober).TimePeriod.Start ≠
      (mtdInput asuncionFirstOctober).TimePeriod.End := by
  refine ⟨?_, by decide, by decide, ?_, by decide, by decide⟩
  · exact (GetMonthlyForecast_calls exampleLib exampleClient asuncionEndSeptember).2 _ rfl
  · exact (GetMonthlyForecast_calls exampleLib exampleClient asuncionFirstOctober).2 _ rfl

end AwsCostNotifier
